import Mathlib

/-!
Verification development for `fileReaderForSlackOff.py`, a single-file PyQt5
"boss key" text reader.  The definitions below are a shallow embedding of the
program state (`TextReader`) and of the operations the specification talks
about: the visibility / auto-hide controller, the configuration store, the
bookmark store and the chapter extractor.  Machine arithmetic follows the
Python semantics (arbitrary-precision `int`, `/` then `int(...)` truncating
toward zero).
-/

namespace FileReader

/-- Model of a `QColor`: red, green, blue, alpha channels (0–255). -/
structure Rgba where
  red : Nat
  green : Nat
  blue : Nat
  alpha : Nat
  deriving DecidableEq, Repr

/-- `QColor.setAlpha`. -/
def Rgba.setAlpha (c : Rgba) (a : Nat) : Rgba :=
  { c with alpha := a }

/-- Decimal digit character for `d < 10` (a digit of Python `str(n)`). -/
def digitCharOfNat (d : Nat) : Char :=
  Char.ofNat (48 + d)

/-- Fuel-based most-significant-digit-first decimal rendering of a natural
number, mirroring Python `str` on a nonnegative integer; the fuel used by
`natDec` is always sufficient. -/
def natDecAux : Nat → Nat → List Char → List Char
  | 0, _, acc => acc
  | fuel + 1, n, acc =>
    if n < 10 then digitCharOfNat n :: acc
    else natDecAux fuel (n / 10) (digitCharOfNat (n % 10) :: acc)

/-- Decimal digit string of a natural number (Python `str`). -/
def natDec (n : Nat) : List Char :=
  natDecAux (n + 1) n []

/-- Python `str` of an `int`. -/
def intDec (i : Int) : String :=
  if i < 0 then ('-' :: natDec (-i).toNat).asString else (natDec i.toNat).asString

/-- Value of an ASCII decimal digit character, `none` otherwise. -/
def decDigit (c : Char) : Option Nat :=
  if 48 ≤ c.toNat ∧ c.toNat ≤ 57 then some (c.toNat - 48) else none

/-- Accumulating value of a decimal digit string.  An underscore is accepted
only when followed by a digit (callers guarantee a digit precedes it),
mirroring the digit-group underscores Python `int` accepts. -/
def decDigitsVal : Nat → List Char → Option Nat
  | acc, [] => some acc
  | acc, c :: cs =>
    if c = '_' then
      match cs with
      | c2 :: _ => if (decDigit c2).isSome then decDigitsVal acc cs else none
      | [] => none
    else
      match decDigit c with
      | some d => decDigitsVal (10 * acc + d) cs
      | none => none

/-- Python `int()` on a character list with surrounding whitespace already
removed: an optional sign followed by a nonempty digit string; `none` models
the `ValueError` raised on anything else. -/
def parseDecCore (cs : List Char) : Option Int :=
  match cs with
  | [] => none
  | c :: rest =>
    if c = '-' then
      match rest with
      | c2 :: _ =>
        if (decDigit c2).isSome then (decDigitsVal 0 rest).map (fun n => -(n : Int)) else none
      | [] => none
    else if c = '+' then
      match rest with
      | c2 :: _ =>
        if (decDigit c2).isSome then (decDigitsVal 0 rest).map (fun n => (n : Int)) else none
      | [] => none
    else if (decDigit c).isSome then
      (decDigitsVal 0 (c :: rest)).map (fun n => (n : Int))
    else none

/-- Python `str.strip()`: whitespace removed at both ends. -/
def pyStrip (s : String) : String :=
  ((s.toList.dropWhile Char.isWhitespace).reverse.dropWhile Char.isWhitespace).reverse.asString

/-- Python `int(s)`: strips whitespace, then parses an optionally signed
decimal numeral. -/
def parseDecInt (s : String) : Option Int :=
  parseDecCore (pyStrip s).toList

/-- Lowercase hexadecimal digit character for `d < 16`. -/
def hexCharOfNat (d : Nat) : Char :=
  if d < 10 then Char.ofNat (48 + d) else Char.ofNat (97 + (d - 10))

/-- Two-digit lowercase hex rendering of a channel value (0–255). -/
def byteHex (n : Nat) : List Char :=
  [hexCharOfNat (n / 16), hexCharOfNat (n % 16)]

/-- `QColor.name()`: the `#rrggbb` form, lowercase, alpha dropped. -/
def colorName (c : Rgba) : String :=
  ('#' :: (byteHex c.red ++ byteHex c.green ++ byteHex c.blue)).asString

/-- Value of a hexadecimal digit character (either case), `none` otherwise. -/
def hexVal (c : Char) : Option Nat :=
  if 48 ≤ c.toNat ∧ c.toNat ≤ 57 then some (c.toNat - 48)
  else if 97 ≤ c.toNat ∧ c.toNat ≤ 102 then some (c.toNat - 87)
  else if 65 ≤ c.toNat ∧ c.toNat ≤ 70 then some (c.toNat - 55)
  else none

/-- `QColor(string)` restricted to the `#rrggbb` form that `QColor.name()`
produces.  Any other string yields an invalid `QColor`, whose channels read
back as black with alpha 255; no exception is raised. -/
def qcolorOfString (s : String) : Rgba :=
  match s.toList with
  | ['#', c1, c2, c3, c4, c5, c6] =>
    match hexVal c1, hexVal c2, hexVal c3, hexVal c4, hexVal c5, hexVal c6 with
    | some h1, some h2, some h3, some h4, some h5, some h6 =>
      ⟨16 * h1 + h2, 16 * h3 + h4, 16 * h5 + h6, 255⟩
    | _, _, _, _, _, _ => ⟨0, 0, 0, 255⟩
  | _ => ⟨0, 0, 0, 255⟩

/-- The mutable state of the `TextReader` object as touched by the verified
operations.  `window_x_attr` etc. model the `self.window_x` … attributes that
`load_config` creates (and `hasattr` tests); they are absent (`none`) on a
fresh object.  `content` is the plain text of the `QTextEdit`; the text
cursor is the pair anchor/position (a selection spans between them). -/
structure Reader where
  transparency : Int
  is_hidden : Bool
  is_empty : Bool
  font_family : String
  font_size : Int
  text_color : Rgba
  bg_color : Rgba
  window_x : Int
  window_y : Int
  window_width : Int
  window_height : Int
  timer_on : Bool
  original_bg_alpha : Option Nat
  original_text_alpha : Option Nat
  window_x_attr : Option Int
  window_y_attr : Option Int
  window_width_attr : Option Int
  window_height_attr : Option Int
  content : String
  cursor_position : Nat
  cursor_anchor : Nat
  deriving DecidableEq, Repr

/-- The data `get_style_sheet` interpolates into the Qt stylesheet: the
background keeps all four channels of `bg_color`, while the text and the
selection color use the RGB of `text_color` with the alpha written as the
literal 255. -/
structure StyleSheet where
  bgColor : Rgba
  textColor : Rgba
  selectionColor : Rgba
  fontFamily : String
  fontSize : Int
  deriving DecidableEq, Repr

/-- `get_style_sheet`. -/
def get_style_sheet (r : Reader) : StyleSheet :=
  { bgColor := r.bg_color
    textColor := ⟨r.text_color.red, r.text_color.green, r.text_color.blue, 255⟩
    selectionColor := ⟨r.text_color.red, r.text_color.green, r.text_color.blue, 255⟩
    fontFamily := r.font_family
    fontSize := r.font_size }

/-- `int(255 * t / 100)`: the float quotient is exact enough on the values
the program produces that truncation toward zero agrees with `Int.div`. -/
def alphaOfTransparency (t : Int) : Nat :=
  ((255 * t).tdiv 100).toNat

/-- `hide_window`: saves the current alphas the first time only (`hasattr`
guard), then zeroes the background alpha, marks the window hidden and stops
the timer.  The text color is not modified. -/
def hide_window (r : Reader) : Reader :=
  let r1 :=
    if r.original_bg_alpha = none then
      { r with original_bg_alpha := some r.bg_color.alpha
               original_text_alpha := some r.text_color.alpha }
    else r
  { r1 with bg_color := r1.bg_color.setAlpha 0
            is_hidden := true
            timer_on := false }

/-- `show_window`: restores the saved background alpha when one was ever
saved, clears the hidden flag, and restarts the timer when the content is
non-empty. -/
def show_window (r : Reader) : Reader :=
  match r.original_bg_alpha with
  | some a =>
    let r1 := { r with bg_color := r.bg_color.setAlpha a, is_hidden := false }
    if r1.is_empty = false then { r1 with timer_on := true } else r1
  | none =>
    let r1 := { r with is_hidden := false }
    if r1.is_empty = false then { r1 with timer_on := true } else r1

/-- `check_and_hide_window`: the timer callback. -/
def check_and_hide_window (r : Reader) : Reader :=
  if r.is_empty = false ∧ r.is_hidden = false then hide_window r else r

/-- Plain-text rendering of the drag-and-drop hint HTML that
`update_empty_state` installs while no file is loaded (modelled abstractly;
only its non-emptiness matters). -/
def hint_text : String := "拖放TXT文件到此处开始阅读"

/-- `update_empty_state`: recomputes the empty flag from the stripped
content; when empty it installs the hint text and stops the timer, otherwise
it starts the timer. -/
def update_empty_state (r : Reader) : Reader :=
  if (pyStrip r.content).toList = [] then
    { r with is_empty := true, content := hint_text, timer_on := false }
  else
    { r with is_empty := false, timer_on := true }

/-- `set_transparency`: stores the percentage and recomputes the background
alpha (the `save_config` call has no effect on the in-memory state). -/
def set_transparency (r : Reader) (value : Int) : Reader :=
  { r with transparency := value
           bg_color := r.bg_color.setAlpha (alphaOfTransparency value) }

/-- `set_text_color`: the dialog result is applied only when valid, and its
alpha is then forced to 255. -/
def set_text_color (r : Reader) (c : Rgba) (valid : Bool) : Reader :=
  if valid then { r with text_color := c.setAlpha 255 } else r

/-- `load_file` on a successful read: set the text, update the empty state,
then start the hide timer unconditionally. -/
def load_file (r : Reader) (c : String) : Reader :=
  let r1 := update_empty_state { r with content := c }
  { r1 with timer_on := true }

/-- The user interactions and timer events relevant to the visibility
controller. -/
inductive Ev where
  | mousePress
  | timerFire
  | loadFile (content : String)
  | hideCmd
  | showCmd
  | setTrans (v : Int)
  deriving DecidableEq, Repr

/-- One step of the event loop.  A left-button press restarts the hide timer
unconditionally (`eventFilter`); a timer timeout runs `check_and_hide_window`
and can only happen while the timer is active; the hide command is the hide
branch of `toggle_window_visibility` (guarded by non-empty content); the
show command calls `show_window`. -/
def step (r : Reader) : Ev → Reader
  | .mousePress => { r with timer_on := true }
  | .timerFire => if r.timer_on then check_and_hide_window r else r
  | .loadFile c => load_file r c
  | .hideCmd => if r.is_empty then r else hide_window r
  | .showCmd => show_window r
  | .setTrans v => set_transparency r v

/-- The `TextReader` state after `__init__` on a fresh start (no config
file, no recent file): the defaults of lines 16–24 and 70, then
`update_empty_state` on the empty text, then `force_show_window`. -/
def initReader : Reader :=
  update_empty_state
    { transparency := 80
      is_hidden := false
      is_empty := true
      font_family := "SimHei"
      font_size := 14
      text_color := ⟨0, 0, 0, 255⟩
      bg_color := ⟨255, 255, 255, 204⟩
      window_x := 100
      window_y := 100
      window_width := 800
      window_height := 600
      timer_on := false
      original_bg_alpha := none
      original_text_alpha := none
      window_x_attr := none
      window_y_attr := none
      window_width_attr := none
      window_height_attr := none
      content := ""
      cursor_position := 0
      cursor_anchor := 0 }

/-- Run a sequence of events from the fresh-start state. -/
def run (evs : List Ev) : Reader :=
  evs.foldl step initReader

/-- One line of the config file, already stripped and split on `=` as
`load_config` does: the first element is the text before the first `=`, the
second the text between the first and the second `=` (Python
`line.split("=")[1]`); a line without `=` is a singleton.  The
`line.startswith(key + "=")` tests of the source are exactly: at least two
elements and the first equals `key`. -/
abbrev ConfigLine := List String

/-- One iteration of the `for line in f` body of `load_config` (lines
530–558).  `.error` models the `ValueError` from `int()` escaping the loop,
carrying the object state at the raise (assignments of earlier lines
persist). -/
def lineUpdate (r : Reader) : ConfigLine → Except Reader Reader
  | key :: val :: _ =>
    if key = "transparency" then
      match parseDecInt val with
      | some v => .ok { r with transparency := max 30 (min 100 v) }
      | none => .error r
    else if key = "window_width" then
      match parseDecInt val with
      | some v => .ok { r with window_width_attr := some (max 300 (min 2000 v)) }
      | none => .error r
    else if key = "window_height" then
      match parseDecInt val with
      | some v => .ok { r with window_height_attr := some (max 200 (min 1500 v)) }
      | none => .error r
    else if key = "window_x" then
      match parseDecInt val with
      | some v => .ok { r with window_x_attr := some v }
      | none => .error r
    else if key = "window_y" then
      match parseDecInt val with
      | some v => .ok { r with window_y_attr := some v }
      | none => .error r
    else if key = "font" then
      .ok { r with font_family := val }
    else if key = "font_size" then
      match parseDecInt val with
      | some v => .ok { r with font_size := v }
      | none => .error r
    else if key = "text_color" then
      .ok { r with text_color := (qcolorOfString val).setAlpha 255 }
    else if key = "bg_color" then
      .ok { r with bg_color := qcolorOfString val }
    else .ok r
  | _ => .ok r

/-- The whole `for line in f` loop: the first exception aborts it. -/
def loadLines (r : Reader) : List ConfigLine → Except Reader Reader
  | [] => .ok r
  | l :: ls =>
    match lineUpdate r l with
    | .ok r1 => loadLines r1 ls
    | .error r1 => .error r1

/-- `QApplication.desktop().availableGeometry()`. -/
structure Screen where
  width : Int
  height : Int
  deriving DecidableEq, Repr

/-- Lines 560–572 of `load_config`: apply the parsed position (clamped to
the screen) when both coordinates were read, apply the parsed size when both
dimensions were read, then recompute the background alpha from the
transparency. -/
def applyLoadedGeometry (screen : Screen) (r : Reader) : Reader :=
  let r1 :=
    match r.window_x_attr, r.window_y_attr with
    | some wx, some wy =>
      { r with window_x := max 0 (min wx (screen.width - 300))
               window_y := max 0 (min wy (screen.height - 200)) }
    | _, _ => r
  let r2 :=
    match r1.window_width_attr, r1.window_height_attr with
    | some w, some h => { r1 with window_width := w, window_height := h }
    | _, _ => r1
  { r2 with bg_color := r2.bg_color.setAlpha (alphaOfTransparency r2.transparency) }

/-- The observable outcome of `load_config`: the resulting object state,
whether the error box was shown, and whether the config file was deleted. -/
structure LoadOutcome where
  state : Reader
  errorReported : Bool
  configDeleted : Bool
  deriving DecidableEq, Repr

/-- `load_config` on an existing config file: on success the parsed geometry
and alpha are applied; on a parse exception the error is reported and the
config file is removed (lines 574–577). -/
def load_config (screen : Screen) (r : Reader) (file : List ConfigLine) : LoadOutcome :=
  match loadLines r file with
  | .ok r1 =>
    { state := applyLoadedGeometry screen r1, errorReported := false, configDeleted := false }
  | .error r1 => { state := r1, errorReported := true, configDeleted := true }

/-- `save_config`: the nine `key=value` lines, in source order (`self.font`
is always set, so the font lines are always written). -/
def save_config (r : Reader) : List ConfigLine :=
  [ ["transparency", intDec r.transparency],
    ["window_width", intDec r.window_width],
    ["window_height", intDec r.window_height],
    ["window_x", intDec r.window_x],
    ["window_y", intDec r.window_y],
    ["font", r.font_family],
    ["font_size", intDec r.font_size],
    ["text_color", colorName r.text_color],
    ["bg_color", colorName r.bg_color] ]

/-- `add_bookmark`: the selected (or current-line) snippet is written to the
bookmark file truncated to its first 100 characters. -/
def add_bookmark (snippet : String) : String :=
  (snippet.toList.take 100).asString

/-- The string `show_context_menu` builds for a stored bookmark line — used
both as the menu label and (through the lambda default argument) as the
argument later passed to `jump_to_bookmark`. -/
def menuBookmarkLabel (b : String) : String :=
  if 30 < b.toList.length then (b.toList.take 27).asString ++ "..." else b

/-- Python `str.find`: index of the first occurrence of `needle` in `hay`,
scanning left to right; `none` models the return value `-1`. -/
def pyFind (hay needle : List Char) : Option Nat :=
  match hay with
  | [] => if needle = [] then some 0 else none
  | c :: t =>
    if needle.isPrefixOf (c :: t) then some 0 else (pyFind t needle).map (· + 1)

/-- `jump_to_bookmark` followed by `highlight_text`: when the bookmark text
occurs, the cursor selects exactly its first occurrence (anchor at the start,
position at the end); otherwise the error box is shown (second component
`true`) and the cursor is untouched. -/
def jump_to_bookmark (r : Reader) (bookmark_text : String) : Reader × Bool :=
  match pyFind r.content.toList bookmark_text.toList with
  | some i =>
    ({ r with cursor_anchor := i, cursor_position := i + bookmark_text.toList.length }, false)
  | none => (r, true)

/-- `re.findall` for the non-greedy pattern `第(.*?)X` (`X` one of the four
closing markers), as a single left-to-right scan.  The state is `none` while
outside a candidate match and `some acc` when a `第` has been passed, `acc`
holding the reversed group collected so far; `.` does not cross a newline
(so a newline aborts the candidate — every `第` before it fails too, since
any closing marker before the newline would have closed the first one), and
scanning resumes after the closing character of a successful match. -/
def scanAux (close : Char) : List Char → Option (List Char) → List (List Char)
  | [], _ => []
  | c :: cs, none =>
    if c = '第' then scanAux close cs (some []) else scanAux close cs none
  | c :: cs, some acc =>
    if c = close then acc.reverse :: scanAux close cs none
    else if c = '\n' then scanAux close cs none
    else scanAux close cs (some (c :: acc))

/-- All groups of `re.findall` for one marker pattern over the content. -/
def findAllGroups (close : Char) (content : List Char) : List (List Char) :=
  scanAux close content none

/-- `f"第{match}章"` — the closing character written back is always `章`,
whichever pattern matched. -/
def matchFmt (m : List Char) : String :=
  ('第' :: (m ++ ['章'])).asString

/-- The closing characters of the four fixed patterns, in source order. -/
def chapterCloses : List Char := ['章', '回', '集', '卷']

/-- The `chapters` list of `extract_chapters` before deduplication: for each
pattern in order, the formatted groups of fewer than 10 characters. -/
def chapterCandidates (content : String) : List String :=
  (chapterCloses.map (fun close =>
    ((findAllGroups close content.toList).filter (fun m => m.length < 10)).map matchFmt)).flatten

/-- Python string comparison on the underlying character (code point)
lists: lexicographic, shorter prefix first. -/
def charListLe : List Char → List Char → Bool
  | [], _ => true
  | _ :: _, [] => false
  | a :: as, b :: bs =>
    if a < b then true else if b < a then false else charListLe as bs

/-- Python `s <= t` on strings. -/
def strLe (s t : String) : Prop :=
  charListLe s.toList t.toList = true

instance : DecidableRel strLe := fun s t => by unfold strLe; infer_instance

/-- `extract_chapters` on the file content: `list(set(...))`, `sort()`, then
the first 20 entries (deduplicating then sorting yields the same sorted list
of distinct entries as sorting an arbitrarily-ordered `set`). -/
def extract_chapters (content : String) : List String :=
  (((chapterCandidates content).dedup).insertionSort strLe).take 20

/-- The state carried by either constructor of the loop result (on an
exception, the Python object keeps the assignments made before the raise). -/
def exceptState : Except Reader Reader → Reader
  | .ok r => r
  | .error r => r

/-- Invariant maintained line by line inside `load_config`'s loop: the
transparency stays clamped to `[30, 100]`, the parsed width and height
attributes are clamped to their fixed bounds, and the applied window size is
untouched by the loop itself. -/
def LineInv (r0 r : Reader) : Prop :=
  (30 ≤ r.transparency ∧ r.transparency ≤ 100) ∧
  (∀ w, r.window_width_attr = some w → 300 ≤ w ∧ w ≤ 2000) ∧
  (∀ h, r.window_height_attr = some h → 200 ≤ h ∧ h ≤ 1500) ∧
  r.window_width = r0.window_width ∧
  r.window_height = r0.window_height

/-- The config keys whose values go through `int()` in `load_config`. -/
def numericKeys : List String :=
  ["transparency", "window_width", "window_height", "window_x", "window_y", "font_size"]

/-- A config line holding a numeric key with a value `int()` rejects — the
lines on which `load_config` raises. -/
def malformedNumericLine (l : ConfigLine) : Prop :=
  ∃ key val rest, l = key :: val :: rest ∧ key ∈ numericKeys ∧ parseDecInt val = none

/-- A fixed desktop geometry used for concrete instantiations. -/
def screen0 : Screen := ⟨1920, 1080⟩

/-- A 35-character line, used as bookmark material. -/
def longLine : String := "aaaaaaaaaaaaaaaaaaaaaaaaaaaaaaaaaaa"

/-! ### Helper lemmas -/

theorem charListLe_total : ∀ x y : List Char, charListLe x y = true ∨ charListLe y x = true := by
  intro x
  induction x with
  | nil => intro y; left; rfl
  | cons a as ih =>
    intro y
    cases y with
    | nil => right; rfl
    | cons b bs =>
      rcases lt_trichotomy a b with hab | hab | hab
      · left; simp [charListLe, hab]
      · subst hab
        rcases ih bs with h | h
        · left; simp [charListLe, h]
        · right; simp [charListLe, h]
      · right; simp [charListLe, hab]

theorem charListLe_trans :
    ∀ x y z : List Char, charListLe x y = true → charListLe y z = true →
      charListLe x z = true := by
  intro x
  induction x with
  | nil => intro y z _ _; rfl
  | cons a as ih =>
    intro y z hxy hyz
    cases y with
    | nil => simp [charListLe] at hxy
    | cons b bs =>
      cases z with
      | nil => simp [charListLe] at hyz
      | cons c cs =>
        simp only [charListLe] at hxy hyz ⊢
        rcases lt_trichotomy a b with hab | hab | hab
        · rcases lt_trichotomy b c with hbc | hbc | hbc
          · simp [lt_trans hab hbc]
          · subst hbc; simp [hab]
          · rw [if_neg (lt_asymm hbc), if_pos hbc] at hyz; exact absurd hyz (by simp)
        · subst hab
          rcases lt_trichotomy a c with hbc | hbc | hbc
          · simp [hbc]
          · subst hbc
            rw [if_neg (lt_irrefl a), if_neg (lt_irrefl a)] at hxy hyz ⊢
            exact ih bs cs hxy hyz
          · rw [if_neg (lt_asymm hbc), if_pos hbc] at hyz; exact absurd hyz (by simp)
        · rw [if_neg (lt_asymm hab), if_pos hab] at hxy; exact absurd hxy (by simp)

instance : IsTotal String strLe :=
  ⟨fun s t => charListLe_total s.toList t.toList⟩

instance : IsTrans String strLe :=
  ⟨fun s t u => charListLe_trans s.toList t.toList u.toList⟩

theorem decDigit_digitCharOfNat : ∀ d : Nat, d < 10 →
    decDigit (digitCharOfNat d) = some d ∧ (digitCharOfNat d).isWhitespace = false ∧
      digitCharOfNat d ≠ '_' ∧ digitCharOfNat d ≠ '-' ∧ digitCharOfNat d ≠ '+' := by
  decide

theorem hexVal_hexCharOfNat : ∀ d : Nat, d < 16 → hexVal (hexCharOfNat d) = some d := by
  decide

theorem natDecAux_mem (fuel : Nat) :
    ∀ (n : Nat) (acc : List Char), ∀ c ∈ natDecAux fuel n acc,
      c ∈ acc ∨ ∃ d, d < 10 ∧ c = digitCharOfNat d := by
  induction fuel with
  | zero => intro n acc c hc; exact Or.inl hc
  | succ fuel ih =>
    intro n acc c hc
    simp only [natDecAux] at hc
    by_cases h : n < 10
    · rw [if_pos h] at hc
      rcases List.mem_cons.mp hc with h1 | h1
      · exact Or.inr ⟨n, h, h1⟩
      · exact Or.inl h1
    · rw [if_neg h] at hc
      rcases ih (n / 10) _ c hc with h1 | h1
      · rcases List.mem_cons.mp h1 with h2 | h2
        · exact Or.inr ⟨n % 10, Nat.mod_lt _ (by omega), h2⟩
        · exact Or.inl h2
      · exact Or.inr h1

theorem natDecAux_head (fuel : Nat) :
    ∀ (n : Nat) (acc : List Char), n < fuel →
      ∃ d rest, d < 10 ∧ natDecAux fuel n acc = digitCharOfNat d :: rest := by
  induction fuel with
  | zero => intro n acc h; omega
  | succ fuel ih =>
    intro n acc h
    simp only [natDecAux]
    by_cases h10 : n < 10
    · rw [if_pos h10]; exact ⟨n, acc, h10, rfl⟩
    · rw [if_neg h10]
      have hlt : n / 10 < fuel := by
        have h1 : n / 10 < n := Nat.div_lt_self (by omega) (by omega)
        omega
      exact ih (n / 10) _ hlt

theorem decDigitsVal_natDecAux (fuel : Nat) :
    ∀ (n a : Nat) (acc : List Char), n < fuel →
      ∃ k, n < 10 ^ k ∧
        decDigitsVal a (natDecAux fuel n acc) = decDigitsVal (a * 10 ^ k + n) acc := by
  induction fuel with
  | zero => intro n a acc h; omega
  | succ fuel ih =>
    intro n a acc h
    simp only [natDecAux]
    by_cases h10 : n < 10
    · rw [if_pos h10]
      refine ⟨1, by omega, ?_⟩
      obtain ⟨hd, _, hne, _, _⟩ := decDigit_digitCharOfNat n h10
      simp only [decDigitsVal, if_neg hne, hd]
      congr 1
      ring
    · rw [if_neg h10]
      have hlt : n / 10 < fuel := by
        have h1 : n / 10 < n := Nat.div_lt_self (by omega) (by omega)
        omega
      obtain ⟨k, hk, hval⟩ := ih (n / 10) a (digitCharOfNat (n % 10) :: acc) hlt
      refine ⟨k + 1, ?_, ?_⟩
      · have h4 : 10 * (n / 10 + 1) ≤ 10 * 10 ^ k := Nat.mul_le_mul_left 10 hk
        have h5 : n < 10 * (n / 10 + 1) := by omega
        have h6 : (10 : Nat) * 10 ^ k = 10 ^ (k + 1) := by ring
        exact lt_of_lt_of_le h5 (h4.trans_eq h6)
      · rw [hval]
        have h2 : n % 10 < 10 := Nat.mod_lt _ (by omega)
        obtain ⟨hd, _, hne, _, _⟩ := decDigit_digitCharOfNat (n % 10) h2
        simp only [decDigitsVal, if_neg hne, hd]
        have hsplit : a * 10 ^ (k + 1) = 10 * (a * 10 ^ k) := by ring
        rw [hsplit]
        congr 1
        omega

theorem decDigitsVal_natDec (n : Nat) : decDigitsVal 0 (natDec n) = some n := by
  obtain ⟨k, _, h⟩ := decDigitsVal_natDecAux (n + 1) n 0 [] (by omega)
  rw [natDec, h]
  simp [decDigitsVal]

theorem natDec_no_ws (n : Nat) : ∀ c ∈ natDec n, c.isWhitespace = false := by
  intro c hc
  rcases natDecAux_mem (n + 1) n [] c hc with h | ⟨d, hd, rfl⟩
  · simp at h
  · exact (decDigit_digitCharOfNat d hd).2.1

theorem dropWhile_isWhitespace_eq_self (l : List Char)
    (h : ∀ c ∈ l, c.isWhitespace = false) : l.dropWhile Char.isWhitespace = l := by
  cases l with
  | nil => rfl
  | cons a t =>
    rw [List.dropWhile_cons]
    simp [h a (List.mem_cons_self a t)]

theorem pyStrip_eq_self (l : List Char) (h : ∀ c ∈ l, c.isWhitespace = false) :
    pyStrip l.asString = l.asString := by
  rw [pyStrip, List.toList_asString]
  rw [dropWhile_isWhitespace_eq_self l h]
  rw [dropWhile_isWhitespace_eq_self l.reverse (fun c hc => h c (List.mem_reverse.mp hc))]
  rw [List.reverse_reverse]

theorem parseDecInt_intDec (i : Int) : parseDecInt (intDec i) = some i := by
  by_cases hi : i < 0
  · have hn : ((-i).toNat : Int) = -i := Int.toNat_of_nonneg (by omega)
    rw [intDec, if_pos hi, parseDecInt]
    rw [pyStrip_eq_self ('-' :: natDec (-i).toNat)
      (by
        intro c hc
        rcases List.mem_cons.mp hc with rfl | hc
        · decide
        · exact natDec_no_ws _ c hc)]
    rw [List.toList_asString]
    obtain ⟨d, rest, hd10, hrest⟩ := natDecAux_head ((-i).toNat + 1) (-i).toNat [] (by omega)
    have hrest' : natDec (-i).toNat = digitCharOfNat d :: rest := hrest
    obtain ⟨hdig, _, _, _, _⟩ := decDigit_digitCharOfNat d hd10
    rw [hrest']
    simp only [parseDecCore, if_pos rfl, hdig, Option.isSome_some, if_true]
    rw [← hrest', decDigitsVal_natDec]
    simp [hn]
  · have hn : (i.toNat : Int) = i := Int.toNat_of_nonneg (by omega)
    rw [intDec, if_neg hi, parseDecInt]
    rw [pyStrip_eq_self (natDec i.toNat) (natDec_no_ws _)]
    rw [List.toList_asString]
    obtain ⟨d, rest, hd10, hrest⟩ := natDecAux_head (i.toNat + 1) i.toNat [] (by omega)
    have hrest' : natDec i.toNat = digitCharOfNat d :: rest := hrest
    obtain ⟨hdig, _, _, hminus, hplus⟩ := decDigit_digitCharOfNat d hd10
    rw [hrest']
    simp only [parseDecCore, if_neg hminus, if_neg hplus, hdig, Option.isSome_some, if_true]
    rw [← hrest', decDigitsVal_natDec]
    simp [hn]

theorem pyFind_eq_none_of_no_occurrence (needle : List Char) :
    ∀ hay : List Char, (∀ i, ¬ needle.isPrefixOf (hay.drop i)) →
      pyFind hay needle = none := by
  intro hay
  induction hay with
  | nil =>
    intro h
    have h0 := h 0
    rw [List.drop_zero] at h0
    rw [pyFind, if_neg]
    intro hnil
    subst hnil
    exact h0 rfl
  | cons c t ih =>
    intro h
    have h0 := h 0
    rw [List.drop_zero] at h0
    rw [pyFind, if_neg h0]
    rw [ih (fun i => by have := h (i + 1); rwa [List.drop_succ_cons] at this)]
    rfl

theorem no_occurrence_of_pyFind_eq_none (needle : List Char) :
    ∀ hay : List Char, pyFind hay needle = none →
      ∀ i, ¬ needle.isPrefixOf (hay.drop i) := by
  intro hay
  induction hay with
  | nil =>
    intro h i
    have hne : needle ≠ [] := by
      intro hnil
      subst hnil
      simp [pyFind] at h
    rw [List.drop_nil]
    intro hpre
    rcases needle with _ | ⟨a, as⟩
    · exact hne rfl
    · simp [List.isPrefixOf] at hpre
  | cons c t ih =>
    intro h i
    rw [pyFind] at h
    by_cases hpre : needle.isPrefixOf (c :: t)
    · rw [if_pos hpre] at h; cases h
    · rw [if_neg hpre] at h
      have ht : pyFind t needle = none := by
        cases hfind : pyFind t needle with
        | none => rfl
        | some j => rw [hfind] at h; cases h
      cases i with
      | zero => rw [List.drop_zero]; exact hpre
      | succ i => rw [List.drop_succ_cons]; exact ih ht i

theorem lineUpdate_inv (r0 r : Reader) (l : ConfigLine) (h : LineInv r0 r) :
    LineInv r0 (exceptState (lineUpdate r l)) := by
  obtain ⟨ht, hw, hh, hww, hwh⟩ := h
  rcases l with _ | ⟨key, _ | ⟨val, rest⟩⟩
  · exact ⟨ht, hw, hh, hww, hwh⟩
  · exact ⟨ht, hw, hh, hww, hwh⟩
  · simp only [lineUpdate]
    split_ifs with h1 h2 h3 h4 h5 h6 h7 h8 h9
    · cases hp : parseDecInt val with
      | some v =>
        refine ⟨⟨?_, ?_⟩, hw, hh, hww, hwh⟩ <;> (simp only [exceptState]; omega)
      | none => exact ⟨ht, hw, hh, hww, hwh⟩
    · cases hp : parseDecInt val with
      | some v =>
        refine ⟨ht, ?_, hh, hww, hwh⟩
        intro w hw'
        have : max 300 (min 2000 v) = w := by
          simpa [exceptState] using hw'
        omega
      | none => exact ⟨ht, hw, hh, hww, hwh⟩
    · cases hp : parseDecInt val with
      | some v =>
        refine ⟨ht, hw, ?_, hww, hwh⟩
        intro w hw'
        have : max 200 (min 1500 v) = w := by
          simpa [exceptState] using hw'
        omega
      | none => exact ⟨ht, hw, hh, hww, hwh⟩
    · cases hp : parseDecInt val with
      | some v => exact ⟨ht, hw, hh, hww, hwh⟩
      | none => exact ⟨ht, hw, hh, hww, hwh⟩
    · cases hp : parseDecInt val with
      | some v => exact ⟨ht, hw, hh, hww, hwh⟩
      | none => exact ⟨ht, hw, hh, hww, hwh⟩
    · exact ⟨ht, hw, hh, hww, hwh⟩
    · cases hp : parseDecInt val with
      | some v => exact ⟨ht, hw, hh, hww, hwh⟩
      | none => exact ⟨ht, hw, hh, hww, hwh⟩
    · exact ⟨ht, hw, hh, hww, hwh⟩
    · exact ⟨ht, hw, hh, hww, hwh⟩
    · exact ⟨ht, hw, hh, hww, hwh⟩

theorem loadLines_inv (r0 : Reader) :
    ∀ (file : List ConfigLine) (r : Reader), LineInv r0 r →
      LineInv r0 (exceptState (loadLines r file)) := by
  intro file
  induction file with
  | nil => intro r h; exact h
  | cons l ls ih =>
    intro r h
    have h1 := lineUpdate_inv r0 r l h
    cases hu : lineUpdate r l with
    | ok r1 =>
      simp only [loadLines, hu]
      rw [hu] at h1
      exact ih r1 h1
    | error r1 =>
      simp only [loadLines, hu]
      rw [hu] at h1
      exact h1

theorem lineUpdate_error_of_malformed (r : Reader) (l : ConfigLine)
    (h : malformedNumericLine l) : lineUpdate r l = .error r := by
  obtain ⟨key, val, rest, rfl, hkey, hval⟩ := h
  simp only [numericKeys, List.mem_cons, List.not_mem_nil, or_false] at hkey
  rcases hkey with rfl | rfl | rfl | rfl | rfl | rfl <;> simp [lineUpdate, hval]

theorem loadLines_error_of_malformed :
    ∀ (file : List ConfigLine) (r : Reader), (∃ l ∈ file, malformedNumericLine l) →
      ∃ re, loadLines r file = .error re := by
  intro file
  induction file with
  | nil => intro r h; simp at h
  | cons l ls ih =>
    intro r h
    cases hu : lineUpdate r l with
    | error r1 => exact ⟨r1, by simp only [loadLines, hu]⟩
    | ok r1 =>
      obtain ⟨l', hl', hm⟩ := h
      rcases List.mem_cons.mp hl' with rfl | hl'
      · rw [lineUpdate_error_of_malformed r l' hm] at hu; cases hu
      · obtain ⟨re, hre⟩ := ih r1 ⟨l', hl', hm⟩
        exact ⟨re, by simp only [loadLines, hu]; exact hre⟩

theorem applyLoadedGeometry_transparency (screen : Screen) (r : Reader) :
    (applyLoadedGeometry screen r).transparency = r.transparency := by
  rw [applyLoadedGeometry]
  rcases r.window_x_attr with _ | wx <;> rcases r.window_y_attr with _ | wy <;>
    rcases r.window_width_attr with _ | w <;> rcases r.window_height_attr with _ | hgt <;> rfl

theorem applyLoadedGeometry_text_color (screen : Screen) (r : Reader) :
    (applyLoadedGeometry screen r).text_color = r.text_color := by
  rw [applyLoadedGeometry]
  rcases r.window_x_attr with _ | wx <;> rcases r.window_y_attr with _ | wy <;>
    rcases r.window_width_attr with _ | w <;> rcases r.window_height_attr with _ | hgt <;> rfl

theorem loadLines_save (r : Reader) :
    loadLines r (save_config r) = .ok
      { r with
        transparency := max 30 (min 100 r.transparency),
        window_width_attr := some (max 300 (min 2000 r.window_width)),
        window_height_attr := some (max 200 (min 1500 r.window_height)),
        window_x_attr := some r.window_x,
        window_y_attr := some r.window_y,
        font_size := r.font_size,
        text_color := (qcolorOfString (colorName r.text_color)).setAlpha 255,
        bg_color := qcolorOfString (colorName r.bg_color) } := by
  simp [save_config, loadLines, lineUpdate, parseDecInt_intDec]

theorem qcolorOfString_colorName (c : Rgba) (hr : c.red < 256) (hg : c.green < 256)
    (hb : c.blue < 256) :
    qcolorOfString (colorName c) = ⟨c.red, c.green, c.blue, 255⟩ := by
  rw [colorName, qcolorOfString]
  simp only [List.toList_asString, byteHex, List.cons_append, List.nil_append]
  rw [hexVal_hexCharOfNat (c.red / 16) (by omega), hexVal_hexCharOfNat (c.red % 16) (by omega),
    hexVal_hexCharOfNat (c.green / 16) (by omega), hexVal_hexCharOfNat (c.green % 16) (by omega),
    hexVal_hexCharOfNat (c.blue / 16) (by omega), hexVal_hexCharOfNat (c.blue % 16) (by omega)]
  have h1 : 16 * (c.red / 16) + c.red % 16 = c.red := by omega
  have h2 : 16 * (c.green / 16) + c.green % 16 = c.green := by omega
  have h3 : 16 * (c.blue / 16) + c.blue % 16 = c.blue := by omega
  simp [h1, h2, h3]

theorem qcolor_roundtrip_setAlpha (c : Rgba) (a : Nat) (ha : c.alpha = a)
    (hr : c.red < 256) (hg : c.green < 256) (hb : c.blue < 256) :
    (qcolorOfString (colorName c)).setAlpha a = c := by
  rw [qcolorOfString_colorName c hr hg hb]
  obtain ⟨red, green, blue, alpha⟩ := c
  simp only [Rgba.setAlpha]
  simp at ha
  rw [ha]

theorem lineUpdate_text_alpha (r : Reader) (l : ConfigLine) (h : r.text_color.alpha = 255) :
    (exceptState (lineUpdate r l)).text_color.alpha = 255 := by
  rcases l with _ | ⟨key, _ | ⟨val, rest⟩⟩
  · exact h
  · exact h
  · simp only [lineUpdate]
    split_ifs <;>
      first
        | exact h
        | (cases hp : parseDecInt val with
            | some v => exact h
            | none => exact h)
        | simp [exceptState, Rgba.setAlpha]

theorem loadLines_text_alpha :
    ∀ (file : List ConfigLine) (r : Reader), r.text_color.alpha = 255 →
      (exceptState (loadLines r file)).text_color.alpha = 255 := by
  intro file
  induction file with
  | nil => intro r h; exact h
  | cons l ls ih =>
    intro r h
    have h1 := lineUpdate_text_alpha r l h
    cases hu : lineUpdate r l with
    | ok r1 =>
      simp only [loadLines, hu]
      rw [hu] at h1
      exact ih r1 h1
    | error r1 =>
      simp only [loadLines, hu]
      rw [hu] at h1
      exact h1

theorem applyLoadedGeometry_size (screen : Screen) (r : Reader) :
    ((applyLoadedGeometry screen r).window_width = r.window_width ∧
      (applyLoadedGeometry screen r).window_height = r.window_height) ∨
    (∃ w hgt, r.window_width_attr = some w ∧ r.window_height_attr = some hgt ∧
      (applyLoadedGeometry screen r).window_width = w ∧
      (applyLoadedGeometry screen r).window_height = hgt) := by
  rw [applyLoadedGeometry]
  rcases r.window_x_attr with _ | wx <;> rcases r.window_y_attr with _ | wy <;>
    rcases r.window_width_attr with _ | w <;> rcases r.window_height_attr with _ | hgt <;>
      simp

/-! ### Claim theorems -/

/-- **C1** (amended).  When the auto-hide timer expires while the loaded
content is non-empty and the window is not already hidden, the program moves
to the Hidden state by setting the background alpha to 0 and stopping the
timer — a cosmetic fade, not an OS-level hide.  The text color is left
unchanged (`hide_window` saves `original_text_alpha` but never zeroes the
text alpha), and the generated stylesheet renders the text with alpha 255
regardless. -/
theorem C1_timer_expiry_fades_background_only (r : Reader)
    (he : r.is_empty = false) (hh : r.is_hidden = false) (ht : r.timer_on = true) :
    (step r Ev.timerFire).is_hidden = true ∧
    (step r Ev.timerFire).bg_color.alpha = 0 ∧
    (step r Ev.timerFire).text_color = r.text_color ∧
    (step r Ev.timerFire).timer_on = false ∧
    (get_style_sheet (step r Ev.timerFire)).textColor.alpha = 255 := by
  have hstep : step r Ev.timerFire = hide_window r := by
    simp [step, ht, check_and_hide_window, he, hh]
  rw [hstep, hide_window]
  split_ifs with ho <;> simp [get_style_sheet, Rgba.setAlpha]

/-- **C1** counterexample to the claim as stated: after a timer expiry in a
non-empty, non-hidden reachable state the window is hidden with background
alpha 0, but the text alpha is not 0. -/
theorem C1_counterexample :
    (step (run [Ev.loadFile "abc"]) Ev.timerFire).is_hidden = true ∧
    (step (run [Ev.loadFile "abc"]) Ev.timerFire).bg_color.alpha = 0 ∧
    ¬ (step (run [Ev.loadFile "abc"]) Ev.timerFire).text_color.alpha = 0 := by
  decide

/-- Witness for C1 at the reachable state produced by loading "abc". -/
theorem C1_witness :
    (step (run [Ev.loadFile "abc"]) Ev.timerFire).is_hidden = true ∧
    (step (run [Ev.loadFile "abc"]) Ev.timerFire).bg_color.alpha = 0 ∧
    (step (run [Ev.loadFile "abc"]) Ev.timerFire).text_color =
      (run [Ev.loadFile "abc"]).text_color ∧
    (step (run [Ev.loadFile "abc"]) Ev.timerFire).timer_on = false ∧
    (get_style_sheet (step (run [Ev.loadFile "abc"]) Ev.timerFire)).textColor.alpha = 255 :=
  C1_timer_expiry_fades_background_only (run [Ev.loadFile "abc"])
    (by decide) (by decide) (by decide)

/-- **C2**.  Chapter extraction yields a deduplicated (`Nodup`),
lexicographically sorted (Python string order `strLe`) list of at most 20
entries, each drawn from the formatted pattern matches of fewer than 10
characters (`chapterCandidates`); on the text `第一章...第二章...第一章` it
yields exactly one entry per distinct label. -/
theorem C2_extract_chapters_spec (content : String) :
    (extract_chapters content).Nodup ∧
    (extract_chapters content).Sorted strLe ∧
    (extract_chapters content).length ≤ 20 ∧
    extract_chapters content ⊆ chapterCandidates content ∧
    extract_chapters "第一章...第二章...第一章" = ["第一章", "第二章"] := by
  refine ⟨?_, ?_, ?_, ?_, by decide⟩
  · have h1 : ((chapterCandidates content).dedup.insertionSort strLe).Nodup :=
      (List.perm_insertionSort strLe (chapterCandidates content).dedup).nodup_iff.mpr
        (List.nodup_dedup (chapterCandidates content))
    exact List.Nodup.sublist (List.take_sublist 20 _) h1
  · exact List.Pairwise.sublist (List.take_sublist 20 _)
      (List.sorted_insertionSort strLe (chapterCandidates content).dedup)
  · simp [extract_chapters]
  · intro s hs
    have h1 : s ∈ (chapterCandidates content).dedup.insertionSort strLe :=
      (List.take_sublist 20 _).subset hs
    exact (List.dedup_sublist (chapterCandidates content)).subset
      ((List.mem_insertionSort strLe).mp h1)

/-- **C3** (amended).  Saving then reloading the configuration reproduces
the geometry and colors for every state whose geometry is inside the clamp
ranges of `load_config` (width in `[300, 2000]`, height in `[200, 1500]`,
position inside the screen margins), whose text alpha is 255, and whose
background alpha equals the alpha derived from the transparency — which is
what every state the program itself writes satisfies; the color channels are
8-bit. -/
theorem C3_save_load_roundtrip (screen : Screen) (r : Reader)
    (ht1 : 30 ≤ r.transparency) (ht2 : r.transparency ≤ 100)
    (hw1 : 300 ≤ r.window_width) (hw2 : r.window_width ≤ 2000)
    (hh1 : 200 ≤ r.window_height) (hh2 : r.window_height ≤ 1500)
    (hx1 : 0 ≤ r.window_x) (hx2 : r.window_x ≤ screen.width - 300)
    (hy1 : 0 ≤ r.window_y) (hy2 : r.window_y ≤ screen.height - 200)
    (htc : r.text_color.alpha = 255)
    (hcr : r.text_color.red < 256) (hcg : r.text_color.green < 256)
    (hcb : r.text_color.blue < 256)
    (hbr : r.bg_color.red < 256) (hbg : r.bg_color.green < 256) (hbb : r.bg_color.blue < 256)
    (hba : r.bg_color.alpha = alphaOfTransparency r.transparency) :
    (load_config screen r (save_config r)).errorReported = false ∧
    (load_config screen r (save_config r)).state.window_width = r.window_width ∧
    (load_config screen r (save_config r)).state.window_height = r.window_height ∧
    (load_config screen r (save_config r)).state.window_x = r.window_x ∧
    (load_config screen r (save_config r)).state.window_y = r.window_y ∧
    (load_config screen r (save_config r)).state.text_color = r.text_color ∧
    (load_config screen r (save_config r)).state.bg_color = r.bg_color := by
  have hcl : max 30 (min 100 r.transparency) = r.transparency := by omega
  simp only [load_config, loadLines_save, applyLoadedGeometry, hcl]
  refine ⟨trivial, by omega, by omega, by omega, by omega, ?_, ?_⟩
  · exact qcolor_roundtrip_setAlpha r.text_color 255 htc hcr hcg hcb
  · exact qcolor_roundtrip_setAlpha r.bg_color _ hba hbr hbg hbb

/-- **C3** counterexample to the claim as stated: the state with window
width 60 (reachable — `resize_window` accepts any width above 50) does not
round-trip: the loaded width is clamped to 300. -/
theorem C3_counterexample :
    (load_config screen0 { initReader with window_width := 60 }
        (save_config { initReader with window_width := 60 })).state.window_width ≠
      ({ initReader with window_width := 60 } : Reader).window_width := by
  decide

/-- Witness for C3 at the fresh-start state on a 1920×1080 screen. -/
theorem C3_witness :
    (load_config screen0 initReader (save_config initReader)).errorReported = false ∧
    (load_config screen0 initReader (save_config initReader)).state.window_width =
      initReader.window_width ∧
    (load_config screen0 initReader (save_config initReader)).state.window_height =
      initReader.window_height ∧
    (load_config screen0 initReader (save_config initReader)).state.window_x =
      initReader.window_x ∧
    (load_config screen0 initReader (save_config initReader)).state.window_y =
      initReader.window_y ∧
    (load_config screen0 initReader (save_config initReader)).state.text_color =
      initReader.text_color ∧
    (load_config screen0 initReader (save_config initReader)).state.bg_color =
      initReader.bg_color :=
  C3_save_load_roundtrip screen0 initReader (by decide) (by decide) (by decide) (by decide)
    (by decide) (by decide) (by decide) (by decide) (by decide) (by decide) (by decide)
    (by decide) (by decide) (by decide) (by decide) (by decide) (by decide) (by decide)

/-- **C4** (code bug).  `show_context_menu` truncates a stored bookmark
longer than 30 characters to its first 27 characters plus `...` for display,
but the menu action's lambda captures that truncated string and passes it to
`jump_to_bookmark`.  On a 35-character bookmark over unchanged text the jump
searches for text containing `...` that does not occur: the error box is
shown and the state (cursor included) is unchanged — even though the stored
bookmark itself occurs at position 0, where the claim says the selection
should land. -/
theorem C4_menu_jump_uses_truncated_label :
    (add_bookmark longLine).toList.length = 35 ∧
    menuBookmarkLabel (add_bookmark longLine) = "aaaaaaaaaaaaaaaaaaaaaaaaaaa..." ∧
    jump_to_bookmark (run [Ev.loadFile longLine]) (menuBookmarkLabel (add_bookmark longLine)) =
      (run [Ev.loadFile longLine], true) ∧
    pyFind (run [Ev.loadFile longLine]).content.toList (add_bookmark longLine).toList =
      some 0 := by
  decide

/-- **C5** counterexample to the claim as stated: a left-button press in the
empty initial state restarts the hide timer unconditionally (`eventFilter`),
so the auto-hide timer is armed — and can fire — while the loaded content is
empty. -/
theorem C5_counterexample :
    (run [Ev.mousePress]).is_empty = true ∧ (run [Ev.mousePress]).timer_on = true := by
  decide

/-- **C5** (amended).  While the loaded content is empty a timer expiry is a
complete no-op — in particular no visible-to-hidden transition and no alpha
change occurs — even though the timer itself can be armed and fire. -/
theorem C5_timer_fire_noop_when_empty (r : Reader) (h : r.is_empty = true) :
    step r Ev.timerFire = r := by
  simp [step, check_and_hide_window, h]

/-- Witness for C5 at the reachable empty state with an armed timer. -/
theorem C5_witness :
    step (run [Ev.mousePress]) Ev.timerFire = run [Ev.mousePress] :=
  C5_timer_fire_noop_when_empty (run [Ev.mousePress]) (by decide)

/-- **C6** (amended).  The explicit show command restores the background
alpha recorded at the *first-ever* hide (`original_bg_alpha` is captured
only when absent and never updated by later hides), clears the hidden flag,
and re-arms the auto-hide timer when content is non-empty. -/
theorem C6_show_restores_first_saved_alpha (r : Reader) (a : Nat)
    (h : r.original_bg_alpha = some a) :
    (show_window r).bg_color.alpha = a ∧
    (show_window r).is_hidden = false ∧
    (r.is_empty = false → (show_window r).timer_on = true) ∧
    (hide_window r).original_bg_alpha = some a := by
  have hne : ¬ (r.original_bg_alpha = none) := by simp [h]
  refine ⟨?_, ?_, ?_, ?_⟩
  · simp only [show_window, h]
    split_ifs <;> simp [Rgba.setAlpha]
  · simp only [show_window, h]
    split_ifs <;> simp
  · intro hemp
    simp [show_window, h, hemp]
  · simp only [hide_window, if_neg hne]
    exact h

/-- **C6** counterexample to the claim as stated: hide, show, change the
transparency to 50% (background alpha 127), hide again, show again — the
shown alpha is 204, the alpha saved at the first hide, not the 127 the
window had immediately before the most recent hide. -/
theorem C6_counterexample :
    (run [Ev.loadFile "a", Ev.hideCmd, Ev.showCmd, Ev.setTrans 50]).bg_color.alpha = 127 ∧
    (run [Ev.loadFile "a", Ev.hideCmd, Ev.showCmd, Ev.setTrans 50, Ev.hideCmd,
        Ev.showCmd]).bg_color.alpha = 204 ∧
    (run [Ev.loadFile "a", Ev.hideCmd, Ev.showCmd, Ev.setTrans 50, Ev.hideCmd,
        Ev.showCmd]).bg_color.alpha ≠
      (run [Ev.loadFile "a", Ev.hideCmd, Ev.showCmd, Ev.setTrans 50]).bg_color.alpha := by
  decide

/-- Witness for C6 at the reachable state just before the second hide. -/
theorem C6_witness :
    (show_window (run [Ev.loadFile "a", Ev.hideCmd, Ev.showCmd, Ev.setTrans 50,
        Ev.hideCmd])).bg_color.alpha = 204 ∧
    (show_window (run [Ev.loadFile "a", Ev.hideCmd, Ev.showCmd, Ev.setTrans 50,
        Ev.hideCmd])).is_hidden = false ∧
    ((run [Ev.loadFile "a", Ev.hideCmd, Ev.showCmd, Ev.setTrans 50,
        Ev.hideCmd]).is_empty = false →
      (show_window (run [Ev.loadFile "a", Ev.hideCmd, Ev.showCmd, Ev.setTrans 50,
        Ev.hideCmd])).timer_on = true) ∧
    (hide_window (run [Ev.loadFile "a", Ev.hideCmd, Ev.showCmd, Ev.setTrans 50,
        Ev.hideCmd])).original_bg_alpha = some 204 :=
  C6_show_restores_first_saved_alpha
    (run [Ev.loadFile "a", Ev.hideCmd, Ev.showCmd, Ev.setTrans 50, Ev.hideCmd]) 204 (by decide)

/-- **C7**.  Loading a config file containing a line with a numeric key
whose value `int()` rejects reports the error to the user and deletes the
config file. -/
theorem C7_malformed_numeric_reports_and_deletes (screen : Screen) (r : Reader)
    (file : List ConfigLine) (h : ∃ l ∈ file, malformedNumericLine l) :
    (load_config screen r file).errorReported = true ∧
    (load_config screen r file).configDeleted = true := by
  obtain ⟨re, hre⟩ := loadLines_error_of_malformed file r h
  rw [load_config, hre]
  exact ⟨rfl, rfl⟩

/-- Witness for C7 on the file `transparency=abc`. -/
theorem C7_witness :
    (load_config screen0 initReader [["transparency", "abc"]]).errorReported = true ∧
    (load_config screen0 initReader [["transparency", "abc"]]).configDeleted = true :=
  C7_malformed_numeric_reports_and_deletes screen0 initReader [["transparency", "abc"]]
    ⟨["transparency", "abc"], by decide,
      "transparency", "abc", [], rfl, by decide, by decide⟩

/-- **C8**.  A successful config load keeps the transparency clamped to
`[30, 100]`; the window dimensions are either untouched (when not both were
in the file) or clamped to `[300, 2000] × [200, 1500]`; concretely, an
out-of-range transparency of 150 loads as 100. -/
theorem C8_load_clamps (screen : Screen) (r : Reader) (file : List ConfigLine)
    (ht1 : 30 ≤ r.transparency) (ht2 : r.transparency ≤ 100)
    (hwa : r.window_width_attr = none) (hha : r.window_height_attr = none)
    (hok : (load_config screen r file).errorReported = false) :
    (30 ≤ (load_config screen r file).state.transparency ∧
      (load_config screen r file).state.transparency ≤ 100) ∧
    ((load_config screen r file).state.window_width = r.window_width ∨
      (300 ≤ (load_config screen r file).state.window_width ∧
        (load_config screen r file).state.window_width ≤ 2000)) ∧
    ((load_config screen r file).state.window_height = r.window_height ∨
      (200 ≤ (load_config screen r file).state.window_height ∧
        (load_config screen r file).state.window_height ≤ 1500)) ∧
    (load_config screen0 initReader [["transparency", "150"]]).state.transparency = 100 := by
  cases hl : loadLines r file with
  | error r1 =>
    rw [load_config, hl] at hok
    cases hok
  | ok r1 =>
    have hinv : LineInv r r1 := by
      have h0 : LineInv r r := ⟨⟨ht1, ht2⟩, by simp [hwa], by simp [hha], rfl, rfl⟩
      have h1 := loadLines_inv r file r h0
      rwa [hl] at h1
    obtain ⟨⟨hi1, hi2⟩, hiw, hih, hiww, hiwh⟩ := hinv
    simp only [load_config, hl]
    refine ⟨?_, ?_, ?_, by decide⟩
    · rw [applyLoadedGeometry_transparency]
      exact ⟨hi1, hi2⟩
    · rcases applyLoadedGeometry_size screen r1 with ⟨hww, _⟩ | ⟨w, hgt, hw', _, hww, _⟩
      · left; rw [hww, hiww]
      · right; rw [hww]; exact hiw w hw'
    · rcases applyLoadedGeometry_size screen r1 with ⟨_, hhh⟩ | ⟨w, hgt, _, hh', _, hhh⟩
      · left; rw [hhh, hiwh]
      · right; rw [hhh]; exact hih hgt hh'

/-- Witness for C8 on the fresh-start state and the empty config file. -/
theorem C8_witness :
    (30 ≤ (load_config screen0 initReader []).state.transparency ∧
      (load_config screen0 initReader []).state.transparency ≤ 100) ∧
    ((load_config screen0 initReader []).state.window_width = initReader.window_width ∨
      (300 ≤ (load_config screen0 initReader []).state.window_width ∧
        (load_config screen0 initReader []).state.window_width ≤ 2000)) ∧
    ((load_config screen0 initReader []).state.window_height = initReader.window_height ∨
      (200 ≤ (load_config screen0 initReader []).state.window_height ∧
        (load_config screen0 initReader []).state.window_height ≤ 1500)) ∧
    (load_config screen0 initReader [["transparency", "150"]]).state.transparency = 100 :=
  C8_load_clamps screen0 initReader [] (by decide) (by decide) (by decide) (by decide)
    (by decide)

/-- **C9**.  Jumping to a bookmark whose text occurs nowhere in the loaded
text shows the error box, terminates normally, and returns the reader state
(cursor and selection included) unchanged. -/
theorem C9_jump_missing_bookmark (r : Reader) (b : String)
    (h : ∀ i, ¬ b.toList.isPrefixOf (r.content.toList.drop i)) :
    jump_to_bookmark r b = (r, true) := by
  rw [jump_to_bookmark, pyFind_eq_none_of_no_occurrence b.toList r.content.toList h]

/-- Witness for C9: jumping to "xyz" with "abc" loaded. -/
theorem C9_witness :
    jump_to_bookmark (run [Ev.loadFile "abc"]) "xyz" = (run [Ev.loadFile "abc"], true) :=
  C9_jump_missing_bookmark (run [Ev.loadFile "abc"]) "xyz"
    (no_occurrence_of_pyFind_eq_none _ _ (by decide))

/-- **C10**.  The text alpha is 255 in the initial state, after a (valid)
text color choice, and after any `load_config` from a state satisfying the
invariant; the generated stylesheet always renders text with alpha 255. -/
theorem C10_text_alpha_always_255 (screen : Screen) (r : Reader) (c : Rgba)
    (file : List ConfigLine) (h : r.text_color.alpha = 255) :
    initReader.text_color.alpha = 255 ∧
    (set_text_color r c true).text_color.alpha = 255 ∧
    (load_config screen r file).state.text_color.alpha = 255 ∧
    (get_style_sheet r).textColor.alpha = 255 := by
  refine ⟨by decide, by simp [set_text_color, Rgba.setAlpha], ?_, rfl⟩
  have h1 := loadLines_text_alpha file r h
  cases hl : loadLines r file with
  | ok r1 =>
    rw [hl] at h1
    simp only [load_config, hl]
    rw [applyLoadedGeometry_text_color]
    exact h1
  | error r1 =>
    rw [hl] at h1
    simp only [load_config, hl]
    exact h1

/-- Witness for C10 on the fresh-start state and a config that sets a text
color. -/
theorem C10_witness :
    initReader.text_color.alpha = 255 ∧
    (set_text_color initReader ⟨10, 20, 30, 77⟩ true).text_color.alpha = 255 ∧
    (load_config screen0 initReader [["text_color", "#102030"]]).state.text_color.alpha =
      255 ∧
    (get_style_sheet initReader).textColor.alpha = 255 :=
  C10_text_alpha_always_255 screen0 initReader ⟨10, 20, 30, 77⟩
    [["text_color", "#102030"]] (by decide)

end FileReader
